import Mathlib

/-!
Verification of the portfolio backend (Express + Supabase) against its
natural-language specification.  Route handlers are shallowly embedded as
pure Lean functions: the parsed JSON request body, the database table
contents and the outcomes of the external collaborators (database client,
SMTP relay, object storage, token verifier) are explicit arguments, and a
handler returns the HTTP response together with the updated table contents.
JavaScript strings are Lean `String`s; the JavaScript string operations
used by the code (`split`, `trim`, `toLowerCase`, `join`) are embedded as
structurally recursive functions over the character list so that concrete
instances evaluate by `decide`.
-/

namespace Portfolio

/-! ## JavaScript string primitives -/

/-- `String.prototype.split` with a single-character separator, on the
character list: JS `"".split(s)` yields `[""]`, and a trailing separator
yields a trailing empty piece. -/
def splitOnChar (sep : Char) : List Char → List (List Char)
  | [] => [[]]
  | c :: cs =>
    if c = sep then [] :: splitOnChar sep cs
    else
      match splitOnChar sep cs with
      | [] => [[c]]
      | piece :: rest => (c :: piece) :: rest

/-- JS `s.split(sep)` for a one-character separator. -/
def jsSplit (sep : Char) (s : String) : List String :=
  (splitOnChar sep s.toList).map fun cs => String.mk cs

/-- JS `Array.prototype.join(sep)` over string pieces, character-list level. -/
def joinWithChar (sep : Char) : List (List Char) → List Char
  | [] => []
  | [piece] => piece
  | piece :: rest => piece ++ sep :: joinWithChar sep rest

/-- JS `parts.join(sep)` for a one-character separator. -/
def jsJoin (sep : Char) (parts : List String) : String :=
  String.mk (joinWithChar sep (parts.map String.toList))

/-- JS `String.prototype.trim`: drop whitespace from both ends. -/
def trimChars (cs : List Char) : List Char :=
  List.rdropWhile Char.isWhitespace (List.dropWhile Char.isWhitespace cs)

/-- JS `s.trim()`. -/
def jsTrim (s : String) : String := String.mk (trimChars s.toList)

/-- JS `s.toLowerCase()` (ASCII-adequate for the domains used here). -/
def jsToLower (s : String) : String := String.mk (s.toList.map Char.toLower)

/-- A minimal HTTP response: status code plus a JSON body rendered as a
string tag (enough to distinguish the responses the handlers produce). -/
structure HttpResponse where
  status : Nat
  body : String
deriving DecidableEq

/-! ## C1 — admin authentication middleware (src/routes/auth.ts 19-33)

`authenticateAdmin` reads `req.headers.authorization?.split(' ')[1]`;
with no token it answers 401 "Access token required", a token rejected by
`jwt.verify` answers 401 "Invalid token", and a verified token attaches
the decoded claims to the request and calls `next()`.  The JWT library is
external, so signature/expiry verification is an abstract
`verify : String → Option C` parameter (`none` models a thrown
verification error). -/

/-- The part of the request the middleware looks at. -/
structure AuthRequest where
  authorization : Option String
deriving DecidableEq

/-- `req.headers.authorization?.split(' ')[1]`. -/
def extractToken (req : AuthRequest) : Option String :=
  match req.authorization with
  | none => none
  | some header => (jsSplit ' ' header).get? 1

/-- Outcome of an Express middleware: either a response was sent, or
control passed to the next handler with data attached to the request. -/
inductive AuthOutcome (C : Type) where
  | reject (status : Nat) (error : String)
  | proceed (adminUser : C)
deriving DecidableEq

/-- src/routes/auth.ts 19-33. -/
def authenticateAdmin {C : Type} (verify : String → Option C) (req : AuthRequest) :
    AuthOutcome C :=
  match extractToken req with
  | none => .reject 401 "Access token required"
  | some token =>
    match verify token with
    | none => .reject 401 "Invalid token"
    | some decoded => .proceed decoded

/-- A protected admin route (e.g. `PUT /api/admin/skills/:id`,
src/routes/admin/skills.ts 59): the middleware runs first and the handler
only runs on `proceed`. -/
def runProtected {C : Type} (verify : String → Option C)
    (handler : C → AuthRequest → HttpResponse) (req : AuthRequest) : HttpResponse :=
  match authenticateAdmin verify req with
  | .reject s e => ⟨s, e⟩
  | .proceed decoded => handler decoded req

/-! ## C8 — filterJwtFields (src/routes/admin/skills.ts 9-14, used at 71) -/

/-- The JWT claim keys stripped from admin PUT bodies. -/
def jwtFields : List String := ["iat", "exp", "sub", "aud", "iss"]

/-- src/routes/admin/skills.ts 9-14: request bodies are JSON objects,
embedded as association lists of key/value pairs. -/
def filterJwtFields {V : Type} (data : List (String × V)) : List (String × V) :=
  data.filter fun kv => !(jwtFields.contains kv.1)

/-- src/routes/admin/skills.ts 71: the update payload `PUT /skills/:id`
hands to `supabase.from('skills').update(...)`. -/
def skillsUpdatePayload {V : Type} (body : List (String × V)) : List (String × V) :=
  filterJwtFields body

/-! ## C2/C4 — POST /api/contact (contact router, src/server.ts 469-546) -/

/-- src/server.ts 477-482: the disposable-email-domain list. -/
def disposableEmailDomains : List String :=
  ["10minutemail.com", "tempmail.com", "guerrillamail.com", "mailinator.com",
   "throwaway.email", "temp-mail.org", "fakeinbox.com", "trashmail.com",
   "getnada.com", "maildrop.cc", "yopmail.com", "mohmal.com", "sharklasers.com",
   "bugmenot.com", "dispostable.com", "spamgourmet.com", "mintemail.com"]

/-- src/server.ts 488: `email.split('@')[1]?.toLowerCase()`. -/
def emailDomain (email : String) : Option String :=
  ((jsSplit '@' email).get? 1).map jsToLower

/-- The parsed JSON body of a contact-form POST; absent fields are `none`. -/
structure ContactBody where
  name : Option String
  email : Option String
  subject : Option String
  message : Option String
  phone : Option String
deriving DecidableEq

/-- src/server.ts 485-496, `validateEmailDomain`: `true` means the
middleware answers 400 and the handler is never reached.  The JS guard
`if (email)` skips the check for an absent or empty (falsy) email. -/
def emailDomainBlocked (body : ContactBody) : Bool :=
  match body.email with
  | none => false
  | some email =>
    if email.isEmpty then false
    else
      match emailDomain email with
      | some domain => disposableEmailDomains.contains domain
      | none => false

/-- A saved `contact_messages` row. -/
structure ContactRow where
  id : Nat
  name : String
  email : String
  subject : String
  message : String
  phone : Option String
  status : String
deriving DecidableEq

/-- Bodies of the responses POST /api/contact can produce. -/
inductive ContactResp where
  | blockedEmail
  | validationFailed (errors : List String)
  | dbFailed
  | created (id : Nat)
deriving DecidableEq

/-- src/server.ts 499-546: the full `POST /` chain of the contact router —
disposable-domain middleware, validator check, insert, then the
fire-and-forget `sendContactNotification` whose eventual outcome
`emailOk` is only `.catch`-logged.  `validationErrors` is what
`validationResult(req)` collects from the external express-validator
checks; `dbOk`/`newId` model the supabase insert outcome.  The result is
(response, table after the request, console error log). -/
def postContact (body : ContactBody) (validationErrors : List String)
    (table : List ContactRow) (dbOk : Bool) (newId : Nat) (emailOk : Bool) :
    (Nat × ContactResp) × List ContactRow × List String :=
  if emailDomainBlocked body then
    ((400, .blockedEmail), table, [])
  else if validationErrors ≠ [] then
    ((400, .validationFailed validationErrors), table, [])
  else if dbOk then
    (((201, .created newId)),
     table ++ [{ id := newId, name := body.name.getD "", email := body.email.getD "",
                 subject := body.subject.getD "", message := body.message.getD "",
                 phone := body.phone, status := "unread" }],
     if emailOk then [] else ["Email notification error"])
  else
    ((500, .dbFailed), table, ["Database error"])

/-! ## C6 — POST /api/admin/skills validation (src/routes/admin/skills.ts 33-56) -/

/-- A field of a parsed JSON request body. -/
inductive JsonField where
  | absent
  | int (n : Int)
  | str (s : String)
  | other
deriving DecidableEq

/-- express-validator `notEmpty()`: present and non-empty as a string
(`other` stands for null-like values, which fail it). -/
def notEmptyOk : JsonField → Bool
  | .absent => false
  | .str s => !s.isEmpty
  | .int _ => true
  | .other => false

/-- express-validator `isInt({ min: 0, max: 100 })`: an integer (or a
string spelling one) between 0 and 100 inclusive. -/
def isIntInRange : JsonField → Bool
  | .int n => decide (0 ≤ n) && decide (n ≤ 100)
  | .str s =>
    match s.toInt? with
    | some n => decide (0 ≤ n) && decide (n ≤ 100)
    | none => false
  | _ => false

/-- A `skills` table row. -/
structure SkillRow where
  id : Nat
  name : String
  level : Int
  category : String
deriving DecidableEq

/-- src/routes/admin/skills.ts 33-36: the errors `validationResult(req)`
collects for a skills POST body. -/
def postSkillsErrors (name level category : JsonField) : List String :=
  (if notEmptyOk name then [] else ["Skill name is required"]) ++
  (if isIntInRange level then [] else ["Level must be between 0 and 100"]) ++
  (if notEmptyOk category then [] else ["Category is required"])

/-- Bodies of the responses POST /skills can produce. -/
inductive SkillsResp where
  | validationFailed (errors : List String)
  | created (row : SkillRow)
  | dbFailed
deriving DecidableEq

/-- src/routes/admin/skills.ts 37-55: check validation, then insert. -/
def postSkills (name level category : JsonField) (table : List SkillRow)
    (newRow : SkillRow) (dbOk : Bool) : (Nat × SkillsResp) × List SkillRow :=
  let errors := postSkillsErrors name level category
  if errors ≠ [] then ((400, .validationFailed errors), table)
  else if dbOk then ((201, .created newRow), table ++ [newRow])
  else ((500, .dbFailed), table)

/-! ## C7 — PUT /api/admin/personal-info upsert (src/routes/admin/personal.ts 34-92) -/

/-- A `personal_info` row: an id plus its other columns as key/value pairs. -/
structure PersonalRow where
  id : Nat
  fields : List (String × String)
deriving DecidableEq

/-- supabase `.update(data)` on one row: the named columns are
overwritten, the rest are untouched. -/
def updateFields (old new : List (String × String)) : List (String × String) :=
  (old.filter fun kv => !((new.map Prod.fst).contains kv.1)) ++ new

/-- src/routes/admin/personal.ts 47-92: on validation failure answer 400;
otherwise strip JWT fields, `select('id').limit(1).single()` (modelled by
`head?`), and either update the matched row or — only when the table has
no row — insert a fresh one. -/
def putPersonalInfo (validationErrors : List String) (body : List (String × String))
    (table : List PersonalRow) (nextId : Nat) : (Nat × String) × List PersonalRow :=
  if validationErrors ≠ [] then ((400, "validation errors"), table)
  else
    let filteredData := filterJwtFields body
    match table.head? with
    | some existingInfo =>
      ((200, "updated"),
       table.map fun r =>
         if r.id = existingInfo.id then { r with fields := updateFields r.fields filteredData }
         else r)
    | none => ((200, "created"), table ++ [⟨nextId, filteredData⟩])

/-! ## C10 — GET /api/hero (src/routes/public.ts 72-101) -/

/-- A `hero_section` row; nullable columns are `Option`s. -/
structure HeroRow where
  greeting : Option String
  name : Option String
  titles : Option (List String)
  description : Option String
  social_links : Option (List (String × String))
deriving DecidableEq

/-- The object GET /api/hero returns. -/
structure HeroResult where
  greeting : String
  name : String
  typing_texts : List String
  quote : String
  social_links : List (String × String)
deriving DecidableEq

/-- JS `v || d` for a nullable string column: null and `''` are falsy. -/
def jsOrStr (v : Option String) (d : String) : String :=
  match v with
  | none => d
  | some s => if s.isEmpty then d else s

/-- JS `v || d` for a nullable array/object column: only null is falsy
(JS arrays and objects are truthy even when empty). -/
def jsOrElse {α : Type} (v : Option α) (d : α) : α := v.getD d

/-- src/routes/public.ts 72-101: `maybeSingle()` yields an optional row
and the handler maps it totally, answering 200 either way. -/
def getHero (row : Option HeroRow) : Nat × HeroResult :=
  (200,
   match row with
   | some hero =>
     { greeting := jsOrStr hero.greeting "Hello, I'm"
       name := jsOrStr hero.name ""
       typing_texts := jsOrElse hero.titles []
       quote := jsOrStr hero.description ""
       social_links := jsOrElse hero.social_links [] }
   | none =>
     { greeting := "Hello, I'm", name := "", typing_texts := [], quote := ""
       social_links := [] })

/-! ## C5 — POST /api/uploads/resume (uploads router, src/routes/auth.ts
211-224 and 296-368) and the app error middleware (src/server.ts 204-221) -/

/-- A multipart file as multer's fileFilter sees it. -/
structure UploadedFile where
  originalname : String
  mimetype : String
deriving DecidableEq

/-- A thrown JS `Error`: a plain `new Error(...)` has `name = "Error"`
and no `status` property. -/
structure JsError where
  name : String
  message : String
  status : Option Nat
deriving DecidableEq

/-- src/routes/auth.ts 217-223: the resume `fileFilter` accepts only
`application/pdf` and otherwise fails the upload with a plain `Error`. -/
def resumeFileFilter (mimetype : String) : Option JsError :=
  if mimetype = "application/pdf" then none
  else some ⟨"Error", "Only PDF files are allowed for resume!", none⟩

/-- src/server.ts 204-221: the app-level error middleware — 404 for
`err.status === 404`, 400 for `err.name === 'ValidationError'`, else
500 (message hidden in production). -/
def errorMiddleware (err : JsError) (production : Bool) : HttpResponse :=
  if err.status = some 404 then ⟨404, "Resource not found"⟩
  else if err.name = "ValidationError" then ⟨400, err.message⟩
  else ⟨500, if production then "Internal server error" else err.message⟩

/-- src/routes/auth.ts 296-368, `POST /resume`: multer's fileFilter runs
before the handler; a rejected file turns into an error delivered to the
app error middleware and the handler never runs.  An accepted upload
first removes the existing `resumes/` files, then stores the new one;
`cleanupOk`/`uploadOk` model the storage client outcomes and `newName`
the generated file name.  Result: (response, stored resume files). -/
def postUploadsResume (file : Option UploadedFile) (storage : List String)
    (newName : String) (cleanupOk uploadOk production : Bool) :
    HttpResponse × List String :=
  match file with
  | none => (⟨400, "No PDF file provided"⟩, storage)
  | some f =>
    match resumeFileFilter f.mimetype with
    | some err => (errorMiddleware err production, storage)
    | none =>
      let afterCleanup := if cleanupOk then [] else storage
      if uploadOk then (⟨200, "resume uploaded"⟩, afterCleanup ++ [newName])
      else (⟨500, "Failed to upload resume"⟩, afterCleanup)

/-! ## C3 — GET /api/projects (src/routes/projects.ts 8-22,
src/routes/public.ts 26-39, mount order src/server.ts 117-123) -/

/-- A `projects` row (the columns the orderings look at, plus the id). -/
structure Project where
  id : Nat
  sort_order : Int
  created_at : Nat
deriving DecidableEq

instance : DecidableRel (fun a b : Project => b.created_at ≤ a.created_at) :=
  fun a b => Nat.decLe _ _

instance : IsTotal Project (fun a b => b.created_at ≤ a.created_at) :=
  ⟨fun a b => Nat.le_total b.created_at a.created_at⟩

instance : IsTrans Project (fun a b => b.created_at ≤ a.created_at) :=
  ⟨fun _ _ _ hab hbc => le_trans hbc hab⟩

instance : DecidableRel (fun a b : Project => a.sort_order < b.sort_order ∨
    (a.sort_order = b.sort_order ∧ b.created_at ≤ a.created_at)) :=
  fun a b => inferInstanceAs (Decidable (a.sort_order < b.sort_order ∨
    (a.sort_order = b.sort_order ∧ b.created_at ≤ a.created_at)))

/-- SQL `ORDER BY created_at DESC` (src/routes/projects.ts 13), embedded
as a stable sort of the table. -/
def orderByCreatedAtDesc (rows : List Project) : List Project :=
  List.insertionSort (fun a b => b.created_at ≤ a.created_at) rows

/-- SQL `ORDER BY sort_order ASC, created_at DESC`
(src/routes/public.ts 31-32). -/
def orderBySortOrderAsc (rows : List Project) : List Project :=
  List.insertionSort (fun a b => a.sort_order < b.sort_order ∨
    (a.sort_order = b.sort_order ∧ b.created_at ≤ a.created_at)) rows

/-- The routers mounted under /api. -/
inductive RouterTag where
  | projects | contact | analytics | admin | uploads | publicRoutes
deriving DecidableEq

/-- src/server.ts 117-123: the mounts, in mounting order. -/
def apiMounts : List (String × RouterTag) :=
  [("/api/projects", .projects), ("/api/contact", .contact),
   ("/api/analytics", .analytics), ("/api/admin", .admin),
   ("/api/uploads", .uploads), ("/api", .publicRoutes)]

/-- Express path-prefix test for a mount point. -/
def pathHasPrefix (pre path : String) : Bool :=
  List.isPrefixOf pre.toList path.toList

/-- Express dispatch: the first mount whose prefix matches the path wins. -/
def dispatchMount (path : String) : Option RouterTag :=
  (apiMounts.find? fun m => pathHasPrefix m.1 path).map (·.2)

/-- GET /api/projects as actually served: express picks the router by
mount order; the projects router's root handler
(src/routes/projects.ts 8-22) answers with the created_at-descending
select, the public router's `/projects` (src/routes/public.ts 26-39)
would answer with the sort_order-ascending select. -/
def getApiProjects (rows : List Project) : Nat × List Project :=
  match dispatchMount "/api/projects" with
  | some .projects => (200, orderByCreatedAtDesc rows)
  | some .publicRoutes => (200, orderBySortOrderAsc rows)
  | _ => (404, [])

instance : DecidableRel (fun a b : Project => a.sort_order ≤ b.sort_order) :=
  fun a b => Int.decLe _ _

/-- The spec's C3 property: adjacent elements of the returned array are
in ascending configured (`sort_order`) order. -/
def sortOrderAdjacentlySorted (rows : List Project) : Prop :=
  List.Chain' (fun a b => a.sort_order ≤ b.sort_order) rows

/-- Two projects whose configured order disagrees with their creation
order: the counterexample data for C3. -/
def demoProjects : List Project := [⟨1, 0, 1⟩, ⟨2, 1, 2⟩]

/-! ## C9 — experience description normalization
(src/routes/admin/experiences.ts 17-25 and 36-45) -/

/-- The JSON value in the `description` field: a string, an array of
lines, or anything else (null, absent, a number, ...). -/
inductive DescVal where
  | str (s : String)
  | arr (lines : List String)
  | other
deriving DecidableEq

/-- src/routes/admin/experiences.ts 17-25, `processDescription` on the
description field.  The JS guard `data.description && typeof
data.description === 'string'` runs split/trim/filter only on truthy
(non-empty) strings; everything else — including the empty string — is
left unchanged. -/
def processDescription : DescVal → DescVal
  | .str s =>
    if s.isEmpty then .str s
    else .arr (((jsSplit '\n' s).map jsTrim).filter fun line => !line.isEmpty)
  | v => v

/-- src/routes/admin/experiences.ts 38-43: the description GET
/experiences sends to the frontend — arrays joined with `'\n'`, other
values via `description || ''`. -/
def descriptionToFrontend : DescVal → String
  | .arr lines => jsJoin '\n' lines
  | .str s => if s.isEmpty then "" else s
  | .other => ""

/-! ## Example data used by the witnesses -/

/-- Example verifier for the C1 witness: accepts exactly one token. -/
def verifyEx : String → Option String :=
  fun t => if t = "valid.jwt.token" then some "admin" else none

/-- Example protected handler for the C1 witness. -/
def handlerEx : String → AuthRequest → HttpResponse := fun _ _ => ⟨200, "skill updated"⟩

end Portfolio

namespace Portfolio

/-! ## Theorems -/

/-- C1: for a protected admin route, a request whose Authorization header
carries no bearer token is answered 401 "Access token required" and the
handler is never reached (the response does not depend on it); a token the
verifier rejects is answered 401 "Invalid token", again without reaching
the handler; a verified token has its decoded identity attached
(`proceed decoded`) and the request proceeds into the handler. -/
theorem admin_auth_gate {C : Type} (verify : String → Option C)
    (handler : C → AuthRequest → HttpResponse) (req : AuthRequest) :
    (extractToken req = none →
      runProtected verify handler req = ⟨401, "Access token required"⟩ ∧
      ∀ handler2, runProtected verify handler req = runProtected verify handler2 req) ∧
    (∀ t, extractToken req = some t → verify t = none →
      runProtected verify handler req = ⟨401, "Invalid token"⟩ ∧
      ∀ handler2, runProtected verify handler req = runProtected verify handler2 req) ∧
    (∀ t decoded, extractToken req = some t → verify t = some decoded →
      authenticateAdmin verify req = .proceed decoded ∧
      runProtected verify handler req = handler decoded req) := by
  refine ⟨fun h => ?_, fun t ht hv => ?_, fun t decoded ht hv => ?_⟩ <;>
    simp_all [runProtected, authenticateAdmin]

/-- Witness for C1 at concrete requests: missing header, bad token, good token. -/
theorem admin_auth_gate_witness :
    runProtected verifyEx handlerEx ⟨none⟩ = ⟨401, "Access token required"⟩ ∧
    runProtected verifyEx handlerEx ⟨some "Bearer forged"⟩ = ⟨401, "Invalid token"⟩ ∧
    runProtected verifyEx handlerEx ⟨some "Bearer valid.jwt.token"⟩ = ⟨200, "skill updated"⟩ :=
  ⟨((admin_auth_gate verifyEx handlerEx ⟨none⟩).1 (by decide)).1,
   ((admin_auth_gate verifyEx handlerEx ⟨some "Bearer forged"⟩).2.1
      "forged" (by decide) (by decide)).1,
   ((admin_auth_gate verifyEx handlerEx ⟨some "Bearer valid.jwt.token"⟩).2.2
      "valid.jwt.token" "admin" (by decide) (by decide)).2⟩

/-- C8: the update payload a skills `PUT` sends to the database contains
none of the JWT claim keys `iat`, `exp`, `sub`, `aud`, `iss`;
`filterJwtFields` removes exactly those keys — every other key/value pair
of the body survives — and it preserves the body's order (the payload is a
sublist of the body). -/
theorem filterJwtFields_exact {V : Type} (body : List (String × V)) :
    (∀ kv ∈ skillsUpdatePayload body, kv.1 ∉ jwtFields) ∧
    (∀ kv ∈ body, kv.1 ∉ jwtFields → kv ∈ skillsUpdatePayload body) ∧
    List.Sublist (skillsUpdatePayload body) body := by
  refine ⟨fun kv hkv => ?_, fun kv hkv hnot => ?_, List.filter_sublist body⟩
  · rcases List.mem_filter.mp hkv with ⟨-, hcond⟩
    simpa using hcond
  · exact List.mem_filter.mpr ⟨hkv, by simpa using hnot⟩

/-- Witness for C8 on a concrete body carrying leaked JWT claims. -/
theorem filterJwtFields_exact_witness :
    (∀ kv ∈ skillsUpdatePayload [("name", "Databases"), ("iat", "171"), ("level", "80"),
        ("exp", "172"), ("sub", "x"), ("aud", "y"), ("iss", "z")], kv.1 ∉ jwtFields) ∧
    ("level", "80") ∈ skillsUpdatePayload [("name", "Databases"), ("iat", "171"),
        ("level", "80"), ("exp", "172"), ("sub", "x"), ("aud", "y"), ("iss", "z")] :=
  ⟨(filterJwtFields_exact _).1,
   (filterJwtFields_exact [("name", "Databases"), ("iat", "171"), ("level", "80"),
        ("exp", "172"), ("sub", "x"), ("aud", "y"), ("iss", "z")]).2.1
     ("level", "80") (by decide) (by decide)⟩

/-- C2: the contact-form response and the resulting table never depend on
the outcome of the fire-and-forget email notification, and whenever the
domain check and the validators pass and the insert succeeds the response
is 201 with the saved message id — whether or not
`sendContactNotification` fails. -/
theorem contact_email_failure_swallowed (body : ContactBody)
    (validationErrors : List String) (table : List ContactRow) (dbOk : Bool)
    (newId : Nat) :
    (∀ e1 e2,
      (postContact body validationErrors table dbOk newId e1).1 =
        (postContact body validationErrors table dbOk newId e2).1 ∧
      (postContact body validationErrors table dbOk newId e1).2.1 =
        (postContact body validationErrors table dbOk newId e2).2.1) ∧
    (emailDomainBlocked body = false → validationErrors = [] → dbOk = true →
      ∀ emailOk, (postContact body validationErrors table dbOk newId emailOk).1 =
        (201, .created newId)) := by
  constructor
  · intro e1 e2
    by_cases hb : emailDomainBlocked body <;> by_cases hv : validationErrors = [] <;>
      cases dbOk <;> simp [postContact, hb, hv]
  · intro hb hv hd emailOk
    simp [postContact, hb, hv, hd]

/-- Example contact body for the C2 witness. -/
def contactBodyEx : ContactBody :=
  ⟨some "Ganpat", some "ganpat@gmail.com", some "Collab", some "Hello there", none⟩

/-- Witness for C2: a concrete passing request gets 201 with its id under
both email outcomes. -/
theorem contact_email_failure_swallowed_witness :
    (postContact contactBodyEx [] [] true 7 false).1 = (201, .created 7) ∧
    (postContact contactBodyEx [] [] true 7 false).1 =
      (postContact contactBodyEx [] [] true 7 true).1 :=
  ⟨(contact_email_failure_swallowed contactBodyEx [] [] true 7).2
      (by decide) rfl rfl false,
   ((contact_email_failure_swallowed contactBodyEx [] [] true 7).1 false true).1⟩

/-- C4: a contact POST whose email domain (the part after `@`, lowercased)
is on the disposable list is answered 400 by the `validateEmailDomain`
middleware and no `contact_messages` row is inserted. -/
theorem contact_disposable_domain_rejected (body : ContactBody)
    (validationErrors : List String) (table : List ContactRow) (dbOk : Bool)
    (newId : Nat) (emailOk : Bool) (email domain : String)
    (hmail : body.email = some email) (hdom : emailDomain email = some domain)
    (hlist : domain ∈ disposableEmailDomains) :
    (postContact body validationErrors table dbOk newId emailOk).1 = (400, .blockedEmail) ∧
    (postContact body validationErrors table dbOk newId emailOk).2.1 = table := by
  have hne : email.isEmpty = false := by
    by_contra h
    have h0 : email = "" := (String.isEmpty_iff email).mp (by simpa using h)
    subst h0
    have : emailDomain "" = none := by decide
    rw [this] at hdom
    cases hdom
  have hblocked : emailDomainBlocked body = true := by
    simp only [emailDomainBlocked, hmail, hne, hdom, Bool.false_eq_true, if_false]
    simpa using hlist
  simp [postContact, hblocked]

/-- Witness for C4 at a concrete disposable-domain request. -/
theorem contact_disposable_domain_rejected_witness :
    (postContact ⟨some "Spammer", some "bot@Mailinator.com", some "hi", some "yo", none⟩
        [] [] true 9 true).1 = (400, .blockedEmail) ∧
    (postContact ⟨some "Spammer", some "bot@Mailinator.com", some "hi", some "yo", none⟩
        [] [] true 9 true).2.1 = [] :=
  contact_disposable_domain_rejected
    ⟨some "Spammer", some "bot@Mailinator.com", some "hi", some "yo", none⟩
    [] [] true 9 true "bot@Mailinator.com" "mailinator.com"
    rfl (by decide) (by decide)

/-- C6: a skills POST whose level is not an integer between 0 and 100
inclusive is answered 400 and inserts nothing; a level in range never
contributes a validation error. -/
theorem skills_level_range_validated (name level category : JsonField)
    (table : List SkillRow) (newRow : SkillRow) (dbOk : Bool) :
    (isIntInRange level = false →
      (postSkills name level category table newRow dbOk).1.1 = 400 ∧
      (postSkills name level category table newRow dbOk).2 = table) ∧
    (isIntInRange level = true →
      "Level must be between 0 and 100" ∉ postSkillsErrors name level category) := by
  constructor
  · intro hlevel
    have hmem : "Level must be between 0 and 100" ∈ postSkillsErrors name level category := by
      simp [postSkillsErrors, hlevel]
    have hne : postSkillsErrors name level category ≠ [] := List.ne_nil_of_mem hmem
    simp [postSkills, hne]
  · intro hlevel
    by_cases hn : notEmptyOk name <;> by_cases hc : notEmptyOk category <;>
      simp [postSkillsErrors, hlevel, hn, hc] <;> decide

/-- Witness for C6: level 150 is rejected without insertion, level 85 is
not the source of any validation error. -/
theorem skills_level_range_validated_witness :
    ((postSkills (.str "TypeScript") (.int 150) (.str "frontend") []
        ⟨1, "TypeScript", 150, "frontend"⟩ true).1.1 = 400 ∧
     (postSkills (.str "TypeScript") (.int 150) (.str "frontend") []
        ⟨1, "TypeScript", 150, "frontend"⟩ true).2 = []) ∧
    "Level must be between 0 and 100" ∉
      postSkillsErrors (.str "TypeScript") (.int 85) (.str "frontend") :=
  ⟨(skills_level_range_validated (.str "TypeScript") (.int 150) (.str "frontend") []
      ⟨1, "TypeScript", 150, "frontend"⟩ true).1 (by decide),
   (skills_level_range_validated (.str "TypeScript") (.int 85) (.str "frontend") []
      ⟨1, "TypeScript", 85, "frontend"⟩ true).2 (by decide)⟩

/-- C7: the personal-info PUT is upsert-if-absent — when a row exists the
request updates that row in place (same row count, same ids, nothing
inserted); only on an empty table does it insert, producing exactly one
row; so the operation never grows the table beyond one row. -/
theorem personal_info_upsert (validationErrors : List String)
    (body : List (String × String)) (table : List PersonalRow) (nextId : Nat) :
    (table ≠ [] →
      (putPersonalInfo validationErrors body table nextId).2.length = table.length ∧
      (putPersonalInfo validationErrors body table nextId).2.map PersonalRow.id =
        table.map PersonalRow.id) ∧
    (validationErrors = [] → table = [] →
      (putPersonalInfo validationErrors body table nextId).2 =
        [⟨nextId, filterJwtFields body⟩]) ∧
    (putPersonalInfo validationErrors body table nextId).2.length ≤
      max table.length 1 := by
  refine ⟨fun hne => ?_, fun hv ht => ?_, ?_⟩
  · obtain ⟨r0, t, rfl⟩ := List.exists_cons_of_ne_nil hne
    by_cases hv : validationErrors = [] <;>
      simp [putPersonalInfo, hv, List.map_map] <;>
      intro r _ <;> (split <;> rfl)
  · subst hv ht
    simp [putPersonalInfo]
  · rcases table with - | ⟨r0, t⟩ <;> by_cases hv : validationErrors = [] <;>
      simp [putPersonalInfo, hv, List.map_map]

/-- Witness for C7: a one-row table is updated in place, an empty table
receives exactly one row. -/
theorem personal_info_upsert_witness :
    ((putPersonalInfo [] [("name", "Ganpat")] [⟨1, [("name", "Old")]⟩] 2).2.length = 1 ∧
     (putPersonalInfo [] [("name", "Ganpat")] [⟨1, [("name", "Old")]⟩] 2).2.map
        PersonalRow.id = [1]) ∧
    (putPersonalInfo [] [("name", "Ganpat")] [] 2).2 = [⟨2, [("name", "Ganpat")]⟩] :=
  ⟨(personal_info_upsert [] [("name", "Ganpat")] [⟨1, [("name", "Old")]⟩] 2).1
      (by decide),
   (personal_info_upsert [] [("name", "Ganpat")] [] 2).2.1 rfl rfl⟩

/-- C10: GET /api/hero always answers 200; with no row it returns exactly
the fixed default object; with a row it returns the field mapping
greeting, name, typing_texts := titles, quote := description,
social_links, defaulting every null column per field and passing
non-null, non-empty values through. -/
theorem hero_total_mapping (row : Option HeroRow) :
    (getHero row).1 = 200 ∧
    (row = none → (getHero row).2 = ⟨"Hello, I'm", "", [], "", []⟩) ∧
    (∀ hero, row = some hero →
      (hero.greeting = none → (getHero row).2.greeting = "Hello, I'm") ∧
      (hero.name = none → (getHero row).2.name = "") ∧
      (hero.titles = none → (getHero row).2.typing_texts = []) ∧
      (hero.description = none → (getHero row).2.quote = "") ∧
      (hero.social_links = none → (getHero row).2.social_links = []) ∧
      (∀ s, hero.greeting = some s → s.isEmpty = false →
        (getHero row).2.greeting = s) ∧
      (∀ ts, hero.titles = some ts → (getHero row).2.typing_texts = ts) ∧
      (∀ s, hero.description = some s → s.isEmpty = false →
        (getHero row).2.quote = s) ∧
      (∀ links, hero.social_links = some links →
        (getHero row).2.social_links = links)) := by
  refine ⟨?_, ?_, ?_⟩
  · cases row <;> rfl
  · rintro rfl; rfl
  · rintro hero rfl
    refine ⟨fun h => ?_, fun h => ?_, fun h => ?_, fun h => ?_, fun h => ?_,
      fun s hs hne => ?_, fun ts hts => ?_, fun s hs hne => ?_, fun links hl => ?_⟩ <;>
      simp_all [getHero, jsOrStr, jsOrElse]

/-- Example hero row for the C10 witness: null greeting, set name/titles. -/
def heroRowEx : HeroRow := ⟨none, some "Ganpat Singh", some ["Developer"], none, none⟩

/-- Witness for C10: missing row gives the default object; a concrete row
gets the default greeting for its null column and its own titles. -/
theorem hero_total_mapping_witness :
    (getHero none).2 = ⟨"Hello, I'm", "", [], "", []⟩ ∧
    (getHero (some heroRowEx)).2.greeting = "Hello, I'm" ∧
    (getHero (some heroRowEx)).2.typing_texts = ["Developer"] := by
  refine ⟨(hero_total_mapping none).2.1 rfl, ?_, ?_⟩
  · exact ((hero_total_mapping (some heroRowEx)).2.2 heroRowEx rfl).1 rfl
  · exact ((hero_total_mapping (some heroRowEx)).2.2 heroRowEx rfl).2.2.2.2.2.2.1
      ["Developer"] rfl

/-- C5 counterexample: a concrete non-PDF resume upload is answered 500,
not the claimed 400 — the fileFilter rejection is a plain `Error`, which
the error middleware does not classify as a validation failure. -/
theorem resume_upload_nonpdf_counterexample :
    (postUploadsResume (some ⟨"photo.png", "image/png"⟩) ["resumes/old.pdf"]
        "resumes/new.pdf" true true true).1.status = 500 ∧
    ¬ (postUploadsResume (some ⟨"photo.png", "image/png"⟩) ["resumes/old.pdf"]
        "resumes/new.pdf" true true true).1.status = 400 := by decide

/-- C5 (amended): every resume upload whose MIME type is not
`application/pdf` is answered 500 by the error middleware and no file is
stored — the handler, and with it the storage upload, never runs. -/
theorem resume_upload_nonpdf_rejected (f : UploadedFile) (storage : List String)
    (newName : String) (cleanupOk uploadOk production : Bool)
    (h : f.mimetype ≠ "application/pdf") :
    (postUploadsResume (some f) storage newName cleanupOk uploadOk production).1.status
      = 500 ∧
    (postUploadsResume (some f) storage newName cleanupOk uploadOk production).2
      = storage := by
  have hf : resumeFileFilter f.mimetype =
      some ⟨"Error", "Only PDF files are allowed for resume!", none⟩ := by
    rw [resumeFileFilter, if_neg h]
  constructor <;> (simp only [postUploadsResume, hf]; try (cases production <;> rfl))

/-- Witness for the amended C5 at a concrete PNG upload. -/
theorem resume_upload_nonpdf_rejected_witness :
    (postUploadsResume (some ⟨"cv.docx", "application/msword"⟩) ["resumes/a.pdf"]
        "resumes/b.pdf" true true false).1.status = 500 ∧
    (postUploadsResume (some ⟨"cv.docx", "application/msword"⟩) ["resumes/a.pdf"]
        "resumes/b.pdf" true true false).2 = ["resumes/a.pdf"] :=
  resume_upload_nonpdf_rejected ⟨"cv.docx", "application/msword"⟩ ["resumes/a.pdf"]
    "resumes/b.pdf" true true false (by decide)

/-- C3 counterexample: GET /api/projects is served by the projects router
(mounted before the public router), which orders by created_at
descending; on a table where the configured order disagrees with
creation order the returned array is not sort_order-ascending. -/
theorem projects_sort_order_counterexample :
    (getApiProjects demoProjects).1 = 200 ∧
    ¬ sortOrderAdjacentlySorted (getApiProjects demoProjects).2 := by
  have hval : getApiProjects demoProjects = (200, [⟨2, 1, 2⟩, ⟨1, 0, 1⟩]) := by decide
  rw [hval]
  refine ⟨rfl, ?_⟩
  simp only [sortOrderAdjacentlySorted, List.chain'_cons, List.chain'_singleton, and_true]
  decide

/-- C3 (amended): GET /api/projects answers 200 with the whole projects
table (a permutation of it) sorted by created_at descending — the
projects router shadows the public router's sort_order-ascending
handler because it is mounted first. -/
theorem projects_sorted_created_at_desc (rows : List Project) :
    (getApiProjects rows).1 = 200 ∧
    List.Sorted (fun a b => b.created_at ≤ a.created_at) (getApiProjects rows).2 ∧
    List.Perm (getApiProjects rows).2 rows := by
  have hdisp : dispatchMount "/api/projects" = some .projects := by decide
  have hroute : getApiProjects rows = (200, orderByCreatedAtDesc rows) := by
    simp [getApiProjects, hdisp]
  rw [hroute]
  exact ⟨rfl, List.sorted_insertionSort _ rows, List.perm_insertionSort _ rows⟩

/-- `splitOnChar` always returns at least one piece (JS `split` never
returns an empty array). -/
theorem splitOnChar_ne_nil (sep : Char) (cs : List Char) : splitOnChar sep cs ≠ [] := by
  induction cs with
  | nil => simp [splitOnChar]
  | cons c cs ih =>
    simp only [splitOnChar]
    split
    · simp
    · split <;> simp

/-- Splitting a separator-free piece returns just that piece. -/
theorem splitOnChar_of_not_mem {sep : Char} :
    ∀ {cs : List Char}, sep ∉ cs → splitOnChar sep cs = [cs]
  | [], _ => rfl
  | c :: cs, h => by
    have hc : ¬ c = sep := by rintro rfl; exact h (List.mem_cons_self _ _)
    have hcs : sep ∉ cs := fun hm => h (List.mem_cons_of_mem _ hm)
    simp only [splitOnChar, if_neg hc, splitOnChar_of_not_mem hcs]

/-- Splitting at the first separator occurrence. -/
theorem splitOnChar_append {sep : Char} (rest : List Char) :
    ∀ {a : List Char}, sep ∉ a →
      splitOnChar sep (a ++ sep :: rest) = a :: splitOnChar sep rest
  | [], _ => by simp [splitOnChar]
  | c :: a, h => by
    have hc : ¬ c = sep := by rintro rfl; exact h (List.mem_cons_self _ _)
    have ha : sep ∉ a := fun hm => h (List.mem_cons_of_mem _ hm)
    have ih := splitOnChar_append rest ha
    simp only [List.cons_append, splitOnChar, List.append_eq, if_neg hc, ih]

/-- No piece produced by a split contains the separator. -/
theorem not_mem_of_mem_splitOnChar {sep : Char} :
    ∀ {cs piece : List Char}, piece ∈ splitOnChar sep cs → sep ∉ piece
  | [], piece, h => by
    simp only [splitOnChar, List.mem_singleton] at h
    subst h; simp
  | c :: cs, piece, h => by
    by_cases hc : c = sep
    · subst hc
      simp only [splitOnChar, if_pos rfl] at h
      rcases List.mem_cons.mp h with rfl | h2
      · simp
      · exact not_mem_of_mem_splitOnChar h2
    · simp only [splitOnChar, if_neg hc] at h
      rcases hq : splitOnChar sep cs with - | ⟨q, rest⟩
      · exact absurd hq (splitOnChar_ne_nil sep cs)
      · rw [hq] at h
        rcases List.mem_cons.mp h with rfl | h2
        · intro hmem
          rcases List.mem_cons.mp hmem with rfl | h3
          · exact hc rfl
          · exact not_mem_of_mem_splitOnChar
              (by rw [hq]; exact List.mem_cons_self q rest) h3
        · exact not_mem_of_mem_splitOnChar
            (by rw [hq]; exact List.mem_cons_of_mem q h2)

/-- Splitting the separator-join of separator-free pieces recovers them. -/
theorem splitOnChar_joinWithChar {sep : Char} :
    ∀ {ls : List (List Char)}, ls ≠ [] → (∀ l ∈ ls, sep ∉ l) →
      splitOnChar sep (joinWithChar sep ls) = ls
  | [], hne, _ => absurd rfl hne
  | [l], _, h => by
    simpa [joinWithChar] using splitOnChar_of_not_mem (h l (List.mem_singleton_self l))
  | l :: l2 :: ls, _, h => by
    have h1 : sep ∉ l := h l (List.mem_cons_self _ _)
    have h2 : ∀ x ∈ l2 :: ls, sep ∉ x := fun x hx => h x (List.mem_cons_of_mem _ hx)
    have ih : splitOnChar sep (joinWithChar sep (l2 :: ls)) = l2 :: ls :=
      splitOnChar_joinWithChar (by simp) h2
    show splitOnChar sep (l ++ sep :: joinWithChar sep (l2 :: ls)) = l :: l2 :: ls
    rw [splitOnChar_append _ h1, ih]

/-- Character-level trimming is idempotent. -/
theorem trimChars_idem (cs : List Char) : trimChars (trimChars cs) = trimChars cs := by
  unfold trimChars
  have hd : List.dropWhile Char.isWhitespace
      (List.rdropWhile Char.isWhitespace (List.dropWhile Char.isWhitespace cs)) =
      List.rdropWhile Char.isWhitespace (List.dropWhile Char.isWhitespace cs) := by
    rcases ht : List.rdropWhile Char.isWhitespace (List.dropWhile Char.isWhitespace cs)
      with - | ⟨c, t⟩
    · simp
    · have hpre := List.rdropWhile_prefix Char.isWhitespace
        (List.dropWhile Char.isWhitespace cs)
      rw [ht] at hpre
      obtain ⟨suf, hsuf⟩ := hpre
      have hd2 : List.dropWhile Char.isWhitespace cs = c :: (t ++ suf) := by
        rw [← hsuf]; simp
      have hidem := List.dropWhile_idempotent (p := Char.isWhitespace) (l := cs)
      rw [hd2] at hidem
      have hnc : Char.isWhitespace c = false := by
        by_contra hcc
        have hcc' : Char.isWhitespace c = true := by simpa using hcc
        rw [List.dropWhile_cons, if_pos hcc'] at hidem
        have hlen : (List.dropWhile Char.isWhitespace (t ++ suf)).length
            = (t ++ suf).length + 1 := by rw [hidem, List.length_cons]
        have hle := (List.dropWhile_suffix (l := t ++ suf) Char.isWhitespace).length_le
        omega
      rw [List.dropWhile_cons, if_neg (by simp [hnc])]
  rw [hd, List.rdropWhile_idempotent]

/-- Trimming removes characters but never adds any. -/
theorem trimChars_sublist (cs : List Char) : List.Sublist (trimChars cs) cs := by
  unfold trimChars
  exact (List.IsPrefix.sublist (List.rdropWhile_prefix _ _)).trans
    (List.IsSuffix.sublist (List.dropWhile_suffix _))

/-- `isEmpty` of a packed character list is list emptiness. -/
theorem mk_isEmpty (cs : List Char) : (String.mk cs).isEmpty = cs.isEmpty := by
  rcases cs with - | ⟨c, cs⟩
  · decide
  · show (String.mk (c :: cs)).isEmpty = false
    cases hb : (String.mk (c :: cs)).isEmpty
    · rfl
    · have h2 := (String.isEmpty_iff (String.mk (c :: cs))).mp hb
      have h3 : c :: cs = ([] : List Char) := congrArg String.data h2
      cases h3

/-- JS trim on a packed list is the character-level trim. -/
theorem jsTrim_mk (cs : List Char) : jsTrim (String.mk cs) = String.mk (trimChars cs) := rfl

/-- JS trim is idempotent. -/
theorem jsTrim_idem (s : String) : jsTrim (jsTrim s) = jsTrim s := by
  show String.mk (trimChars (String.mk (trimChars s.toList)).toList) =
    String.mk (trimChars s.toList)
  rw [show (String.mk (trimChars s.toList)).toList = trimChars s.toList from rfl,
    trimChars_idem]

/-- C9 counterexample: the claimed normalization behaviour fails on the
empty cases — the empty string is a string yet `processDescription`
leaves it unchanged instead of producing the empty array, so the
join-then-normalize round trip of the empty (normalized) array does not
return the empty array. -/
theorem description_empty_counterexample :
    processDescription (.str (descriptionToFrontend (.arr []))) ≠ .arr [] ∧
    processDescription (.str "") ≠ DescVal.arr [] := by decide

/-- C9 (amended): `processDescription` maps every non-empty string to the
array of its trimmed non-empty lines and leaves arrays, the empty string
and non-strings unchanged; every array it produces from a string consists
of non-empty, trim-fixed, newline-free lines; and for every non-empty
array of such lines, joining with `'\n'` (as GET /experiences does) and
normalizing again returns the same array. -/
theorem description_normalization (lines : List String) (hne : lines ≠ [])
    (hinv : ∀ l ∈ lines, l.isEmpty = false ∧ jsTrim l = l ∧ '\n' ∉ l.toList) :
    processDescription (.str (descriptionToFrontend (.arr lines))) = .arr lines ∧
    (∀ ls, processDescription (.arr ls) = .arr ls) ∧
    processDescription .other = .other ∧
    (∀ s out, processDescription (.str s) = .arr out →
      ∀ l ∈ out, l.isEmpty = false ∧ jsTrim l = l ∧ '\n' ∉ l.toList) := by
  refine ⟨?_, fun ls => rfl, rfl, ?_⟩
  · have hJ : descriptionToFrontend (.arr lines) =
        String.mk (joinWithChar '\n' (lines.map String.toList)) := rfl
    rw [hJ]
    have hJne : joinWithChar '\n' (lines.map String.toList) ≠ [] := by
      rcases lines with - | ⟨l, rest⟩
      · exact absurd rfl hne
      · rcases rest with - | ⟨l2, rest2⟩
        · show l.toList ≠ []
          intro hnil
          have h2 : l.toList.isEmpty = false := by
            rw [← mk_isEmpty]
            exact (hinv l (List.mem_cons_self _ _)).1
          rw [hnil] at h2
          cases h2
        · show l.toList ++ '\n' :: joinWithChar '\n' ((l2 :: rest2).map String.toList) ≠ []
          simp
    have hmkE : (String.mk (joinWithChar '\n' (lines.map String.toList))).isEmpty
        = false := by
      rw [mk_isEmpty]
      rcases hJJ : joinWithChar '\n' (lines.map String.toList) with - | ⟨c, t⟩
      · exact absurd hJJ hJne
      · rfl
    simp only [processDescription, hmkE, Bool.false_eq_true, if_false]
    congr 1
    have hsplit : jsSplit '\n' (String.mk (joinWithChar '\n' (lines.map String.toList)))
        = lines.map (fun l => String.mk l.toList) := by
      show (splitOnChar '\n' (joinWithChar '\n' (lines.map String.toList))).map String.mk
        = _
      rw [splitOnChar_joinWithChar (by simpa using hne) ?side, List.map_map]
      · rfl
      case side =>
        intro x hx
        rcases List.mem_map.mp hx with ⟨l, hl, rfl⟩
        exact (hinv l hl).2.2
    rw [hsplit]
    have hmk : lines.map (fun l => String.mk l.toList) = lines := by
      have he : (fun l : String => String.mk l.toList) = fun l => l := funext fun l => rfl
      rw [he, List.map_id']
    rw [hmk]
    have htrim : lines.map jsTrim = lines := by
      have h1 : lines.map jsTrim = lines.map (fun l => l) :=
        List.map_congr_left fun l hl => (hinv l hl).2.1
      rw [h1, List.map_id']
    rw [htrim]
    exact List.filter_eq_self.mpr fun l hl => by simp [(hinv l hl).1]
  · intro s out h l hl
    cases hs : s.isEmpty
    · simp only [processDescription, hs, Bool.false_eq_true, if_false] at h
      have hout : out = ((jsSplit '\n' s).map jsTrim).filter fun line => !line.isEmpty :=
        (DescVal.arr.inj h).symm
      subst hout
      have hl2 := (List.mem_filter.mp hl).1
      refine ⟨by simpa using (List.mem_filter.mp hl).2, ?_, ?_⟩
      · rcases List.mem_map.mp hl2 with ⟨p, hp, rfl⟩
        exact jsTrim_idem p
      · rcases List.mem_map.mp hl2 with ⟨p, hp, rfl⟩
        rcases List.mem_map.mp hp with ⟨q, hq, rfl⟩
        show '\n' ∉ (jsTrim (String.mk q)).toList
        rw [jsTrim_mk]
        intro hmem
        exact not_mem_of_mem_splitOnChar hq ((trimChars_sublist q).subset hmem)
    · simp only [processDescription, hs, if_true] at h
      cases h

/-- Witness for the amended C9 on a concrete normalized description. -/
theorem description_normalization_witness :
    processDescription
        (.str (descriptionToFrontend (.arr ["Built REST APIs", "Led a team"]))) =
      .arr ["Built REST APIs", "Led a team"] :=
  (description_normalization ["Built REST APIs", "Led a team"]
      (by decide) (by decide)).1

end Portfolio
